import Mathlib

/-!
Shallow embedding of the editor-framework slice of the repository
(Code/Sandbox/Plugins/EditorCommon/EditorFramework/Editor.cpp), covering
the recent-files list, the adaptive-layout controller, layout save/restore
(SetLayout/GetLayout), the menu descriptor lookup used by GetMenu, and
EnableDockingSystem.  Qt containers are modelled as follows: QStringList
as List String, QVariant as an inductive with Bool and map payloads,
QVariantMap as an association list with QMap lookup/insert semantics.
-/

namespace EditorFramework

/-- Qt orientation values (Qt::Horizontal / Qt::Vertical), the codomain of
the adaptive-layout computation in CEditor::UpdateAdaptiveLayout. -/
inductive Orientation where
  | Horizontal
  | Vertical
deriving DecidableEq

/-- QVariant as used by CEditor::SetLayout / CEditor::GetLayout: a boolean
(adaptiveLayout), a nested map (dockingState, editorContent), or the
default-constructed invalid variant produced by QMap lookup misses. -/
inductive QVariant where
  | vBool (b : Bool)
  | vMap (m : List (String × QVariant))
  | vInvalid

/-- QVariantMap: Qt association of String keys to QVariant values. -/
abbrev QVariantMap := List (String × QVariant)

/-- QVariant::toBool: true only for a boolean variant holding true
(an invalid or map variant converts to false). -/
def QVariant.toBool : QVariant → Bool
  | .vBool b => b
  | _ => false

/-- QVariant::toMap: the held map, or the empty map for non-map variants
(in particular for the invalid variant returned on a lookup miss). -/
def QVariant.toMap : QVariant → QVariantMap
  | .vMap m => m
  | _ => []

/-- QMap lookup: the value at the first (unique) matching key, if any. -/
def qmapLookup (m : QVariantMap) (key : String) : Option QVariant :=
  match m with
  | [] => none
  | (k, v) :: rest => if k = key then some v else qmapLookup rest key

/-- QMap::contains. -/
def qmapContains (m : QVariantMap) (key : String) : Bool :=
  (qmapLookup m key).isSome

/-- QMap::value / const operator[]: the stored value, or a
default-constructed (invalid) QVariant when the key is absent. -/
def qmapValue (m : QVariantMap) (key : String) : QVariant :=
  (qmapLookup m key).getD .vInvalid

/-- QMap::insert: replaces the value at an existing key, otherwise adds
the pair. -/
def qmapInsert (m : QVariantMap) (key : String) (v : QVariant) : QVariantMap :=
  match m with
  | [] => [(key, v)]
  | (k, w) :: rest =>
    if k = key then (key, v) :: rest else (k, w) :: qmapInsert rest key v

/-- Private_EditorFramework::s_maxRecentFiles (Editor.cpp line 33). -/
def s_maxRecentFiles : Nat := 10

/-- QStringList::indexOf: index of the first occurrence of x, or -1. -/
def indexOf (l : List String) (x : String) : Int :=
  match l with
  | [] => -1
  | a :: rest =>
    if a = x then 0
    else
      let r := indexOf rest x
      if r = -1 then -1 else r + 1

/-- CEditor::AddRecentFile (Editor.cpp lines 455-471) acting on the
"Recent Files" project-property list: remove the existing occurrence of
filePath if present (indexOf / removeAt), push it to the front, and
truncate with mid(0, s_maxRecentFiles) when the size exceeds the cap. -/
def addRecentFile (filePath : String) (recent : List String) : List String :=
  let index := indexOf recent filePath
  let recent1 := if index > -1 then recent.eraseIdx index.toNat else recent
  let recent2 := filePath :: recent1
  if recent2.length > s_maxRecentFiles then recent2.take s_maxRecentFiles
  else recent2

/-- The recent-files list obtained by a sequence of AddRecentFile calls
starting from the empty list (fresh project property). -/
def runAddRecentFiles (paths : List String) : List String :=
  paths.foldl (fun acc p => addRecentFile p acc) []

theorem indexOf_neg_one_or_nonneg (l : List String) (x : String) :
    indexOf l x = -1 ∨ 0 ≤ indexOf l x := by
  induction l with
  | nil => left; rfl
  | cons a rest ih =>
    by_cases hax : a = x
    · right; simp [indexOf, hax]
    · rcases ih with h | h
      · left; simp [indexOf, hax, h]
      · rcases eq_or_ne (indexOf rest x) (-1) with he | he
        · left; simp [indexOf, hax, he]
        · right; simp only [indexOf, hax, if_false, he, if_neg he]
          omega

theorem removeFirst_eq_erase (l : List String) (x : String) :
    (if indexOf l x > -1 then l.eraseIdx (indexOf l x).toNat else l)
      = l.erase x := by
  induction l with
  | nil => simp [indexOf]
  | cons a rest ih =>
    by_cases hax : a = x
    · subst hax
      simp [indexOf]
    · have hbeq : (a == x) = false := by
        simp [hax]
      rcases eq_or_ne (indexOf rest x) (-1) with he | he
      · have : indexOf (a :: rest) x = -1 := by
          simp [indexOf, hax, he]
        rw [this]
        simp only [show ¬((-1 : Int) > -1) by omega, if_false]
        rw [List.erase_cons_tail (by simp [hbeq])]
        rw [← ih]
        simp [he]
      · have hge : 0 ≤ indexOf rest x := by
          rcases indexOf_neg_one_or_nonneg rest x with h | h
          · exact absurd h he
          · exact h
        have hidx : indexOf (a :: rest) x = indexOf rest x + 1 := by
          simp [indexOf, hax, he]
        rw [hidx]
        have hgt : indexOf rest x + 1 > -1 := by omega
        rw [if_pos hgt]
        have htn : (indexOf rest x + 1).toNat = (indexOf rest x).toNat + 1 := by
          omega
        rw [htn, List.eraseIdx_cons_succ]
        rw [List.erase_cons_tail (by simp [hbeq])]
        rw [← ih, if_pos (by omega)]

/-- The removal phase of AddRecentFile is exactly erase-first-occurrence. -/
theorem addRecentFile_eq_erase_form (filePath : String) (recent : List String) :
    addRecentFile filePath recent =
      (let r2 := filePath :: recent.erase filePath
       if r2.length > s_maxRecentFiles then r2.take s_maxRecentFiles else r2) := by
  simp only [addRecentFile, removeFirst_eq_erase]

theorem addRecentFile_length_le (filePath : String) (recent : List String) :
    (addRecentFile filePath recent).length ≤ s_maxRecentFiles := by
  rw [addRecentFile_eq_erase_form]
  simp only []
  split
  · simp [s_maxRecentFiles]
  · omega

theorem addRecentFile_head (filePath : String) (recent : List String) :
    (addRecentFile filePath recent).head? = some filePath := by
  rw [addRecentFile_eq_erase_form]
  simp only []
  split
  · rw [show s_maxRecentFiles = 9 + 1 from rfl]
    rfl
  · rfl

theorem addRecentFile_nodup (filePath : String) (recent : List String)
    (h : recent.Nodup) : (addRecentFile filePath recent).Nodup := by
  rw [addRecentFile_eq_erase_form]
  have hnd : (filePath :: recent.erase filePath).Nodup := by
    refine List.nodup_cons.mpr ⟨?_, h.erase filePath⟩
    exact h.not_mem_erase
  simp only []
  split
  · exact List.Nodup.sublist (List.take_sublist _ _) hnd
  · exact hnd

/-- CEditor::MenuItems identities referenced by InitMenuDesc
(Editor.cpp lines 165-200; the enum itself is declared in Editor.h). -/
inductive MenuItems where
  | FileMenu | New | NewFolder | Open | Close | Save | SaveAs | RecentFiles
  | EditMenu | Undo | Redo | Copy | Cut | Paste | Rename | Delete
  | Find | FindPrevious | FindNext | SelectAll | Duplicate
  | ViewMenu | ZoomIn | ZoomOut
  | ToolBarMenu | WindowMenu | HelpMenu | Help
deriving DecidableEq

/-- CAbstractMenu::EPriorities::ePriorities_Append, the order sentinel used
for the Help menu.  Modelled from the spec: the constant is declared in
Menu/AbstractMenu.h, which is not part of this slice; only its role as an
append-at-end order value matters, not its numeric value. -/
def ePriorities_Append : Nat := 1000000

/-- One declaration of the menu descriptor tree: MenuDesc::AddMenu carries
(item, group, order, name, children); MenuDesc::AddAction carries
(item, group, order, bound command).  Mirrors the declarative calls in
CEditor::InitMenuDesc. -/
inductive MenuDescItem where
  | addMenu (item : MenuItems) (group order : Nat) (name : String)
      (children : List MenuDescItem)
  | addAction (item : MenuItems) (group order : Nat) (command : String)

/-- The descriptor forest built by CEditor::InitMenuDesc
(Editor.cpp lines 165-200). -/
def defaultMenuDesc : List MenuDescItem :=
  [ .addMenu .FileMenu 0 0 "File"
      [ .addAction .New 0 0 "general.new",
        .addAction .NewFolder 0 1 "general.new_folder",
        .addAction .Open 0 2 "general.open",
        .addAction .Close 0 3 "general.close",
        .addAction .Save 0 4 "general.save",
        .addAction .SaveAs 0 5 "general.save_as",
        .addMenu .RecentFiles 0 6 "Recent Files" [] ],
    .addMenu .EditMenu 0 1 "Edit"
      [ .addAction .Undo 0 0 "general.undo",
        .addAction .Redo 0 1 "general.redo",
        .addAction .Copy 1 0 "general.copy",
        .addAction .Cut 1 1 "general.cut",
        .addAction .Paste 1 2 "general.paste",
        .addAction .Rename 1 3 "general.rename",
        .addAction .Delete 1 4 "general.delete",
        .addAction .Find 2 0 "general.find",
        .addAction .FindPrevious 2 1 "general.find_previous",
        .addAction .FindNext 2 2 "general.find_next",
        .addAction .SelectAll 2 3 "general.select_all",
        .addAction .Duplicate 3 0 "general.duplicate" ],
    .addMenu .ViewMenu 0 2 "View"
      [ .addAction .ZoomIn 0 0 "general.zoom_in",
        .addAction .ZoomOut 0 1 "general.zoom_out" ],
    .addMenu .ToolBarMenu 0 10 "Toolbars" [],
    .addMenu .WindowMenu 0 20 "Window" [],
    .addMenu .HelpMenu 1 ePriorities_Append "Help"
      [ .addAction .Help 0 0 "general.help" ] ]

mutual

/-- Depth-first search of a descriptor node for the entry with the given
enum identity. -/
def findDescItem (d : MenuDescItem) (target : MenuItems) : Option MenuDescItem :=
  match d with
  | .addMenu it g o n children =>
    if it = target then some (.addMenu it g o n children)
    else findDescItemInList children target
  | .addAction it g o cmd =>
    if it = target then some (.addAction it g o cmd) else none

/-- Depth-first search of a descriptor forest for the entry with the given
enum identity. -/
def findDescItemInList (ds : List MenuDescItem) (target : MenuItems) :
    Option MenuDescItem :=
  match ds with
  | [] => none
  | d :: rest =>
    match findDescItem d target with
    | some r => some r
    | none => findDescItemInList rest target

end

/-- Whether a descriptor lookup produced a Menu node. -/
def isMenuDescEntry : Option MenuDescItem → Bool
  | some (.addMenu _ _ _ _ _) => true
  | _ => false

/-- MenuDesc::CDesc::GetMenuName.  Modelled from the spec: the method is
declared in Editor.h (not part of this slice); it returns the declared name
when the item's descriptor entry is a Menu node and the empty string
otherwise ("empty if item is not a menu"). -/
def getMenuName (ds : List MenuDescItem) (item : MenuItems) : String :=
  match findDescItemInList ds item with
  | some (.addMenu _ _ _ name _) => name
  | _ => ""

/-- CAbstractMenu: runtime menu tree with a name, submenus and bound
action commands (Menu/AbstractMenu.h is outside this slice; only the
structure needed by FindMenuRecursive and CreateMenu is modelled). -/
inductive AbstractMenu where
  | node (name : String) (subMenus : List AbstractMenu) (actions : List String)

/-- Name of an abstract menu node. -/
def AbstractMenu.menuName : AbstractMenu → String
  | .node n _ _ => n

mutual

/-- CAbstractMenu::FindMenuRecursive: depth-first search by name. -/
def findMenuRecursive (m : AbstractMenu) (target : String) :
    Option AbstractMenu :=
  match m with
  | .node n subs acts =>
    if n = target then some (.node n subs acts)
    else findMenuInList subs target

/-- Depth-first search of a submenu list by name. -/
def findMenuInList (ms : List AbstractMenu) (target : String) :
    Option AbstractMenu :=
  match ms with
  | [] => none
  | m :: rest =>
    match findMenuRecursive m target with
    | some r => some r
    | none => findMenuInList rest target

end

/-- CAbstractMenu::CreateMenu.  Modelled from the spec: idempotent — keeps
the existing submenu of that name if present, else creates and inserts it. -/
def createMenu (root : AbstractMenu) (name : String) : AbstractMenu :=
  match root with
  | .node n subs acts =>
    if subs.any (fun m => m.menuName = name) then .node n subs acts
    else .node n (subs ++ [.node name [] []]) acts

/-- MenuDesc::CDesc::AddItem restricted to Menu nodes (the only use in
EnableDockingSystem is AddToMenu(MenuItems::WindowMenu), a menu node).
Modelled from the spec: AddItem is declared in Editor.h; inserting a menu
item materialises it in the abstract menu via the idempotent CreateMenu. -/
def addMenuDescItemToMenu (root : AbstractMenu) (ds : List MenuDescItem)
    (item : MenuItems) : AbstractMenu :=
  match findDescItemInList ds item with
  | some (.addMenu _ _ _ name _) => createMenu root name
  | _ => root

/-- The state of one CEditor instance, restricted to the fields the
verified operations read or write.  dockingRegistry is none until
EnableDockingSystem runs; when present it carries the registry's persisted
state map (CDockableContainer::SetState/GetState, modelled from the spec as
a stored map).  editorContent carries CEditorContent::SetState/GetState
state the same way.  properties models the per-editor personalization
key-value store behind GetProperty. -/
structure EditorState where
  isAdaptiveLayoutEnabled : Bool
  actionChecked : Bool
  currentOrient : Orientation
  defaultOrient : Orientation
  width : Nat
  height : Nat
  dockingRegistry : Option QVariantMap
  editorContent : QVariantMap
  properties : QVariantMap
  menu : AbstractMenu

/-- The orientation computed from the container size in
CEditor::UpdateAdaptiveLayout (Editor.cpp lines 531-535): Horizontal iff
width() > height(), else Vertical. -/
def computeOrient (width height : Nat) : Orientation :=
  if width > height then .Horizontal else .Vertical

/-- CEditor::UpdateAdaptiveLayout (Editor.cpp lines 522-542).  Returns the
new state and the list of orientation values signalled through
OnAdaptiveLayoutChanged / signalAdaptiveLayoutChanged during the call. -/
def updateAdaptiveLayout (s : EditorState) : EditorState × List Orientation :=
  if !s.isAdaptiveLayoutEnabled then
    let s1 := { s with currentOrient := s.defaultOrient }
    (s1, [s1.currentOrient])
  else
    let newOrient := computeOrient s.width s.height
    if newOrient = s.currentOrient then (s, [])
    else
      let s1 := { s with currentOrient := newOrient }
      (s1, [s1.currentOrient])

/-- CEditor::SetAdaptiveLayoutEnabled (Editor.cpp lines 544-552): early
return when the flag already has the requested value; otherwise store it,
update the checked state of the adaptive-layout action, and run
UpdateAdaptiveLayout. -/
def setAdaptiveLayoutEnabled (enable : Bool) (s : EditorState) :
    EditorState × List Orientation :=
  if s.isAdaptiveLayoutEnabled = enable then (s, [])
  else
    let s1 := { s with isAdaptiveLayoutEnabled := enable, actionChecked := enable }
    updateAdaptiveLayout s1

/-- CEditor::resizeEvent (Editor.cpp lines 559-568).  Qt updates the
widget size before the handler runs, so the state first takes the new
width and height; the handler then early-outs when adaptive layout is
disabled and otherwise runs UpdateAdaptiveLayout. -/
def resizeEvent (w h : Nat) (s : EditorState) : EditorState × List Orientation :=
  let s1 := { s with width := w, height := h }
  if !s1.isAdaptiveLayoutEnabled then (s1, [])
  else updateAdaptiveLayout s1

/-- CEditor::SetLayout (Editor.cpp lines 406-419): applies adaptiveLayout
only when the key is present, applies dockingState only when a docking
registry exists and the key is present, and unconditionally passes
state["editorContent"].toMap() to CEditorContent::SetState (modelled from
the spec as replacing the stored content state). -/
def setLayout (state : QVariantMap) (s : EditorState) :
    EditorState × List Orientation :=
  let step1 :=
    if qmapContains state "adaptiveLayout" then
      setAdaptiveLayoutEnabled (qmapValue state "adaptiveLayout").toBool s
    else (s, [])
  let s1 := step1.1
  let s2 :=
    if s1.dockingRegistry.isSome && qmapContains state "dockingState" then
      { s1 with dockingRegistry := some (qmapValue state "dockingState").toMap }
    else s1
  let s3 := { s2 with editorContent := (qmapValue state "editorContent").toMap }
  (s3, step1.2)

/-- CEditor::GetLayout (Editor.cpp lines 421-433): inserts dockingState
only when a docking registry exists, then editorContent, then the
adaptiveLayout flag. -/
def getLayout (s : EditorState) : QVariantMap :=
  let r : QVariantMap := []
  let r :=
    match s.dockingRegistry with
    | some d => qmapInsert r "dockingState" (.vMap d)
    | none => r
  let r := qmapInsert r "editorContent" (.vMap s.editorContent)
  qmapInsert r "adaptiveLayout" (.vBool s.isAdaptiveLayoutEnabled)

/-- CEditor::GetMenu(MenuItems) (Editor.cpp lines 355-359): look up the
item's menu name in the descriptor; when it is non-empty, search the
abstract menu recursively, otherwise return null. -/
def getMenuByItem (s : EditorState) (ds : List MenuDescItem)
    (item : MenuItems) : Option AbstractMenu :=
  let name := getMenuName ds item
  if ¬name.isEmpty then findMenuRecursive s.menu name else none

/-- CEditor::EnableDockingSystem (Editor.cpp lines 366-381): early return
when the docking registry already exists; otherwise add the Window menu
and create the registry from the persisted "dockLayout" property.  The
widget wiring of the original (signal connection, SetMenu, SetContent)
acts on external toolkit objects and has no counterpart in this state. -/
def enableDockingSystem (s : EditorState) : EditorState :=
  if s.dockingRegistry.isSome then s
  else
    let s1 := { s with
                menu := addMenuDescItemToMenu s.menu defaultMenuDesc .WindowMenu }
    { s1 with
      dockingRegistry := some (qmapValue s1.properties "dockLayout").toMap }

theorem foldl_addRecentFile_nodup (paths : List String) :
    ∀ acc : List String, acc.Nodup →
      (List.foldl (fun acc p => addRecentFile p acc) acc paths).Nodup := by
  induction paths with
  | nil => intro acc h; exact h
  | cons q rest ih =>
    intro acc h
    exact ih (addRecentFile q acc) (addRecentFile_nodup q acc h)

theorem foldl_addRecentFile_length (paths : List String) :
    ∀ acc : List String, acc.length ≤ s_maxRecentFiles →
      (List.foldl (fun acc p => addRecentFile p acc) acc paths).length
        ≤ s_maxRecentFiles := by
  induction paths with
  | nil => intro acc h; exact h
  | cons q rest ih =>
    intro acc _
    exact ih (addRecentFile q acc) (addRecentFile_length_le q acc)

/-- C1: every sequence of AddRecentFile calls starting from the empty
recent-files list yields a list of length at most 10 with no duplicate
paths, whose first element is the most recently added path. -/
theorem c1_addRecentFile_sequences (paths : List String) :
    (runAddRecentFiles paths).length ≤ s_maxRecentFiles
    ∧ (runAddRecentFiles paths).Nodup
    ∧ ∀ p : String, (runAddRecentFiles (paths ++ [p])).head? = some p := by
  refine ⟨?_, ?_, ?_⟩
  · exact foldl_addRecentFile_length paths [] (by simp [s_maxRecentFiles])
  · exact foldl_addRecentFile_nodup paths [] List.nodup_nil
  · intro p
    unfold runAddRecentFiles
    rw [List.foldl_append]
    exact addRecentFile_head p _

/-- C2: re-adding a path already present in a recent-files list (a list
within the capacity bound) moves it to the front and keeps the length. -/
theorem c2_addRecentFile_readd (p : String) (l : List String)
    (hmem : p ∈ l) (hlen : l.length ≤ s_maxRecentFiles) :
    (addRecentFile p l).head? = some p
    ∧ (addRecentFile p l).length = l.length := by
  rw [addRecentFile_eq_erase_form]
  have hne : l ≠ [] := List.ne_nil_of_mem hmem
  have hpos : 1 ≤ l.length := List.length_pos.mpr hne
  have herase : (l.erase p).length = l.length - 1 :=
    List.length_erase_of_mem hmem
  have hlen2 : (p :: l.erase p).length = l.length := by
    simp only [List.length_cons, herase]
    omega
  have hnotgt : ¬(p :: l.erase p).length > s_maxRecentFiles := by
    omega
  simp only [hnotgt, if_false]
  exact ⟨rfl, hlen2⟩

/-- Witness for C2 at a concrete input. -/
theorem c2_addRecentFile_readd_witness :
    ("b" ∈ ["a", "b"] ∧ (["a", "b"] : List String).length ≤ s_maxRecentFiles)
    ∧ ((addRecentFile "b" ["a", "b"]).head? = some "b"
       ∧ (addRecentFile "b" ["a", "b"]).length
           = (["a", "b"] : List String).length) :=
  ⟨⟨by decide, by decide⟩,
   c2_addRecentFile_readd "b" ["a", "b"] (by decide) (by decide)⟩

/-- A concrete editor state with adaptive layout enabled whose current
orientation already equals the editor-declared default. -/
def sampleEnabledState : EditorState :=
  { isAdaptiveLayoutEnabled := true
    actionChecked := true
    currentOrient := .Vertical
    defaultOrient := .Vertical
    width := 100
    height := 200
    dockingRegistry := none
    editorContent := []
    properties := []
    menu := .node "" [] [] }

/-- C3: disabling adaptive layout (a transition into the Disabled state)
resets the current orientation to the editor-declared default and fires
exactly one orientation-changed notification, with no condition on whether
the orientation already equals that default. -/
theorem c3_disable_fires_unconditionally (s : EditorState)
    (hEn : s.isAdaptiveLayoutEnabled = true) :
    (setAdaptiveLayoutEnabled false s).1.currentOrient = s.defaultOrient
    ∧ (setAdaptiveLayoutEnabled false s).2 = [s.defaultOrient] := by
  simp [setAdaptiveLayoutEnabled, hEn, updateAdaptiveLayout]

/-- Witness for C3 at a concrete state already at the default orientation. -/
theorem c3_disable_fires_unconditionally_witness :
    sampleEnabledState.isAdaptiveLayoutEnabled = true
    ∧ ((setAdaptiveLayoutEnabled false sampleEnabledState).1.currentOrient
         = sampleEnabledState.defaultOrient
       ∧ (setAdaptiveLayoutEnabled false sampleEnabledState).2
           = [sampleEnabledState.defaultOrient]) :=
  ⟨rfl, c3_disable_fires_unconditionally sampleEnabledState rfl⟩

/-- C4: with adaptive layout enabled, a resize fires the orientation
notification exactly when the orientation computed from the new size
differs from the current one (and then with that computed value); the
concrete 100x200 to 200x100 scenario fires exactly one Horizontal
notification and the repeated 200x100 resize fires none. -/
theorem c4_resize_notification (s : EditorState) (w hgt : Nat)
    (hEn : s.isAdaptiveLayoutEnabled = true) :
    ((resizeEvent w hgt s).2
       = if computeOrient w hgt = s.currentOrient then []
         else [computeOrient w hgt])
    ∧ (resizeEvent 200 100 sampleEnabledState).2 = [.Horizontal]
    ∧ (resizeEvent 200 100 (resizeEvent 200 100 sampleEnabledState).1).2 = [] := by
  refine ⟨?_, rfl, rfl⟩
  simp only [resizeEvent, hEn, Bool.not_true, Bool.false_eq_true, if_false,
    updateAdaptiveLayout]
  split
  · rfl
  · rfl

/-- Witness for C4 at a concrete state and size. -/
theorem c4_resize_notification_witness :
    sampleEnabledState.isAdaptiveLayoutEnabled = true
    ∧ (((resizeEvent 200 100 sampleEnabledState).2
          = if computeOrient 200 100 = sampleEnabledState.currentOrient then []
            else [computeOrient 200 100])
       ∧ (resizeEvent 200 100 sampleEnabledState).2 = [.Horizontal]
       ∧ (resizeEvent 200 100 (resizeEvent 200 100 sampleEnabledState).1).2
           = []) :=
  ⟨rfl, c4_resize_notification sampleEnabledState 200 100 rfl⟩

/-- C5: with adaptive layout enabled, the orientation resulting from
UpdateAdaptiveLayout is Horizontal exactly when width exceeds height and
Vertical otherwise, so equal width and height yields Vertical. -/
theorem c5_orient_policy (s : EditorState)
    (hEn : s.isAdaptiveLayoutEnabled = true) :
    ((updateAdaptiveLayout s).1.currentOrient
       = if s.width > s.height then Orientation.Horizontal
         else Orientation.Vertical)
    ∧ (s.width = s.height →
        (updateAdaptiveLayout s).1.currentOrient = Orientation.Vertical) := by
  have h1 : (updateAdaptiveLayout s).1.currentOrient
      = computeOrient s.width s.height := by
    simp only [updateAdaptiveLayout, hEn, Bool.not_true, Bool.false_eq_true,
      if_false]
    split
    · rename_i heq
      exact heq.symm
    · rfl
  refine ⟨h1, fun heq => ?_⟩
  rw [h1, computeOrient, if_neg (by omega)]

/-- Witness for C5 at a concrete state with equal width and height. -/
theorem c5_orient_policy_witness :
    ({ sampleEnabledState with
       width := 50, height := 50 }).isAdaptiveLayoutEnabled = true
    ∧ (((updateAdaptiveLayout { sampleEnabledState with
           width := 50, height := 50 }).1.currentOrient
          = if ({ sampleEnabledState with
                  width := 50, height := 50 }).width
                > ({ sampleEnabledState with
                     width := 50, height := 50 }).height
            then Orientation.Horizontal else Orientation.Vertical)
       ∧ (({ sampleEnabledState with width := 50, height := 50 }).width
            = ({ sampleEnabledState with width := 50, height := 50 }).height →
          (updateAdaptiveLayout { sampleEnabledState with
             width := 50, height := 50 }).1.currentOrient
            = Orientation.Vertical)) :=
  ⟨rfl, c5_orient_policy { sampleEnabledState with width := 50, height := 50 }
          rfl⟩

/-- C10: requesting the adaptive-layout flag value it already has is a
complete no-op, returning the state unchanged and firing no notification. -/
theorem c10_set_same_flag_noop (enable : Bool) (s : EditorState)
    (h : s.isAdaptiveLayoutEnabled = enable) :
    setAdaptiveLayoutEnabled enable s = (s, []) := by
  simp [setAdaptiveLayoutEnabled, h]

/-- Witness for C10 at a concrete state. -/
theorem c10_set_same_flag_noop_witness :
    sampleEnabledState.isAdaptiveLayoutEnabled = true
    ∧ setAdaptiveLayoutEnabled true sampleEnabledState
        = (sampleEnabledState, []) :=
  ⟨rfl, c10_set_same_flag_noop true sampleEnabledState rfl⟩

theorem updateAdaptiveLayout_frame (s : EditorState) :
    (updateAdaptiveLayout s).1.isAdaptiveLayoutEnabled = s.isAdaptiveLayoutEnabled
    ∧ (updateAdaptiveLayout s).1.dockingRegistry = s.dockingRegistry
    ∧ (updateAdaptiveLayout s).1.editorContent = s.editorContent := by
  unfold updateAdaptiveLayout
  split
  · exact ⟨rfl, rfl, rfl⟩
  · dsimp only
    split
    · exact ⟨rfl, rfl, rfl⟩
    · exact ⟨rfl, rfl, rfl⟩

theorem setAdaptiveLayoutEnabled_frame (e : Bool) (s : EditorState) :
    (setAdaptiveLayoutEnabled e s).1.isAdaptiveLayoutEnabled = e
    ∧ (setAdaptiveLayoutEnabled e s).1.dockingRegistry = s.dockingRegistry
    ∧ (setAdaptiveLayoutEnabled e s).1.editorContent = s.editorContent := by
  unfold setAdaptiveLayoutEnabled
  split
  · rename_i h
    exact ⟨h, rfl, rfl⟩
  · obtain ⟨h1, h2, h3⟩ := updateAdaptiveLayout_frame
      { s with isAdaptiveLayoutEnabled := e, actionChecked := e }
    exact ⟨h1, h2, h3⟩

theorem qmapValue_of_not_contains (m : QVariantMap) (key : String)
    (h : qmapContains m key = false) : qmapValue m key = .vInvalid := by
  unfold qmapValue
  unfold qmapContains at h
  cases hl : qmapLookup m key with
  | none => rfl
  | some v => rw [hl] at h; simp at h

/-- A concrete editor state holding non-empty editor-content state. -/
def c6ContentState : EditorState :=
  { sampleEnabledState with editorContent := [("toolbars", .vBool true)] }

/-- Counterexample to C6 as stated: restoring a layout map that lacks the
editorContent key does not leave the editor content state unchanged; the
content state is replaced via SetState with the empty map. -/
theorem c6_missing_key_counterexample :
    (setLayout [] c6ContentState).1.editorContent
      ≠ c6ContentState.editorContent := by
  intro hcontra
  have hempty : ([] : QVariantMap) = [("toolbars", QVariant.vBool true)] :=
    hcontra
  exact List.noConfusion hempty

/-- C6 amended: a missing adaptiveLayout key leaves the adaptive-layout
flag unchanged (and fires nothing), and a missing dockingState key leaves
the docking state unchanged; but the editorContent key is applied
unconditionally, so when it is missing the content state is set from the
empty map rather than left unchanged. -/
theorem c6_missing_keys_effect (state : QVariantMap) (s : EditorState) :
    (qmapContains state "adaptiveLayout" = false →
       (setLayout state s).1.isAdaptiveLayoutEnabled
           = s.isAdaptiveLayoutEnabled
       ∧ (setLayout state s).2 = [])
    ∧ (qmapContains state "dockingState" = false →
       (setLayout state s).1.dockingRegistry = s.dockingRegistry)
    ∧ (qmapContains state "editorContent" = false →
       (setLayout state s).1.editorContent = []) := by
  refine ⟨fun hA => ?_, fun hD => ?_, fun hE => ?_⟩
  · simp only [setLayout, hA, Bool.false_eq_true, if_false]
    constructor
    · split <;> rfl
    · trivial
  · simp only [setLayout, hD, Bool.and_false, Bool.false_eq_true, if_false]
    split
    · exact (setAdaptiveLayoutEnabled_frame _ s).2.1
    · rfl
  · simp only [setLayout, qmapValue_of_not_contains state "editorContent" hE]
    rfl

/-- Witness for C6 amended: all hypotheses discharged at the empty layout
map and a concrete state. -/
theorem c6_missing_keys_effect_witness :
    ((setLayout [] c6ContentState).1.isAdaptiveLayoutEnabled
         = c6ContentState.isAdaptiveLayoutEnabled
       ∧ (setLayout [] c6ContentState).2 = [])
    ∧ (setLayout [] c6ContentState).1.dockingRegistry
        = c6ContentState.dockingRegistry
    ∧ (setLayout [] c6ContentState).1.editorContent = [] := by
  obtain ⟨h1, h2, h3⟩ := c6_missing_keys_effect [] c6ContentState
  exact ⟨h1 rfl, h2 rfl, h3 rfl⟩

/-- A concrete editor state whose docking registry exists. -/
def dockedState : EditorState :=
  { sampleEnabledState with dockingRegistry := some [] }

/-- C9: once the docking registry exists, EnableDockingSystem returns
immediately, leaving the whole editor state (registry, menu structure,
content) unchanged. -/
theorem c9_enableDockingSystem_idempotent (s : EditorState)
    (h : s.dockingRegistry.isSome = true) :
    enableDockingSystem s = s := by
  unfold enableDockingSystem
  rw [if_pos h]

/-- Witness for C9 at a concrete docking-enabled state. -/
theorem c9_enableDockingSystem_idempotent_witness :
    dockedState.dockingRegistry.isSome = true
    ∧ enableDockingSystem dockedState = dockedState :=
  ⟨rfl, c9_enableDockingSystem_idempotent dockedState rfl⟩

theorem getLayout_lookups (s : EditorState) (d : QVariantMap)
    (h : s.dockingRegistry = some d) :
    qmapLookup (getLayout s) "adaptiveLayout"
        = some (.vBool s.isAdaptiveLayoutEnabled)
    ∧ qmapLookup (getLayout s) "dockingState" = some (.vMap d)
    ∧ qmapLookup (getLayout s) "editorContent"
        = some (.vMap s.editorContent) := by
  simp only [getLayout, h]
  exact ⟨rfl, rfl, rfl⟩

/-- The layout state map of the round-trip scenario: empty docking state,
empty editor content, adaptiveLayout set to true. -/
def c7LayoutState : QVariantMap :=
  [("dockingState", .vMap []), ("editorContent", .vMap []),
   ("adaptiveLayout", .vBool true)]

/-- C7: on an editor whose docking registry exists, applying SetLayout
with dockingState {}, editorContent {} and adaptiveLayout true and then
reading GetLayout yields adaptiveLayout true and returns the two nested
maps exactly as they were set. -/
theorem c7_setLayout_getLayout_roundtrip (s : EditorState) (d : QVariantMap)
    (hdock : s.dockingRegistry = some d) :
    qmapLookup (getLayout (setLayout c7LayoutState s).1) "adaptiveLayout"
        = some (.vBool true)
    ∧ qmapLookup (getLayout (setLayout c7LayoutState s).1) "dockingState"
        = some (.vMap [])
    ∧ qmapLookup (getLayout (setLayout c7LayoutState s).1) "editorContent"
        = some (.vMap []) := by
  have hreg := (setAdaptiveLayoutEnabled_frame true s).2.1
  have hflag := (setAdaptiveLayoutEnabled_frame true s).1
  have hc1 : qmapContains c7LayoutState "adaptiveLayout" = true := rfl
  have hv1 : (qmapValue c7LayoutState "adaptiveLayout").toBool = true := rfl
  have hc2 : qmapContains c7LayoutState "dockingState" = true := rfl
  have hv2 : (qmapValue c7LayoutState "dockingState").toMap = [] := rfl
  have hv3 : (qmapValue c7LayoutState "editorContent").toMap = [] := rfl
  have hstep : (setLayout c7LayoutState s).1
      = { (setAdaptiveLayoutEnabled true s).1 with
          dockingRegistry := some [], editorContent := [] } := by
    simp only [setLayout, hc1, hv1, hc2, hv2, hv3, if_true, hreg, hdock,
      Option.isSome_some, Bool.true_and]
  rw [hstep]
  obtain ⟨g1, g2, g3⟩ := getLayout_lookups
    { (setAdaptiveLayoutEnabled true s).1 with
      dockingRegistry := some [], editorContent := [] } [] rfl
  refine ⟨?_, g2, g3⟩
  exact g1.trans (congrArg (fun b => some (QVariant.vBool b)) hflag)

/-- Witness for C7 at a concrete docking-enabled state. -/
theorem c7_setLayout_getLayout_roundtrip_witness :
    dockedState.dockingRegistry = some []
    ∧ (qmapLookup (getLayout (setLayout c7LayoutState dockedState).1)
           "adaptiveLayout" = some (.vBool true)
       ∧ qmapLookup (getLayout (setLayout c7LayoutState dockedState).1)
           "dockingState" = some (.vMap [])
       ∧ qmapLookup (getLayout (setLayout c7LayoutState dockedState).1)
           "editorContent" = some (.vMap [])) :=
  ⟨rfl, c7_setLayout_getLayout_roundtrip dockedState [] rfl⟩

/-- C8: a menu item whose descriptor entry is not a Menu node has the
empty menu name, and GetMenu on it returns null instead of failing. -/
theorem c8_nonmenu_item_null (s : EditorState) (ds : List MenuDescItem)
    (item : MenuItems)
    (h : isMenuDescEntry (findDescItemInList ds item) = false) :
    getMenuName ds item = "" ∧ getMenuByItem s ds item = none := by
  have hname : getMenuName ds item = "" := by
    unfold getMenuName
    cases hfd : findDescItemInList ds item with
    | none => rfl
    | some e =>
      cases e with
      | addMenu it g o n children =>
        rw [hfd] at h
        simp [isMenuDescEntry] at h
      | addAction it g o cmd => rfl
  refine ⟨hname, ?_⟩
  unfold getMenuByItem
  rw [hname]
  simp [String.isEmpty]

/-- Witness for C8: the Save item is declared as an action, not a menu. -/
theorem c8_nonmenu_item_null_witness :
    isMenuDescEntry (findDescItemInList defaultMenuDesc .Save) = false
    ∧ (getMenuName defaultMenuDesc .Save = ""
       ∧ getMenuByItem sampleEnabledState defaultMenuDesc .Save = none) :=
  ⟨rfl, c8_nonmenu_item_null sampleEnabledState defaultMenuDesc .Save rfl⟩

end EditorFramework
